import Mathlib

/-!
Verification development for the NetXMS Grafana datasource backend
(`pkg/plugin/datasource.go`).  The Go code is shallowly embedded: JSON
values decoded by `encoding/json` become the inductive `JVal` (numbers are
carried as exact rationals standing for the decoded `float64`), the remote
HTTP layer becomes an environment function from requests to responses, and
each query handler becomes a pure function from a query batch to a response
map.  A runtime panic (out-of-bounds index, failed interface type
assertion) is modelled as `Option.none`.  Error messages are carried
without the Go error details interpolated by `fmt.Sprintf` (e.g. the
modelled `json unmarshal` stands for `json unmarshal: <err>`); the status
and the fixed message prefixes are preserved exactly.
-/

namespace NetXMS

/-- A JSON value as produced by Go `encoding/json` decoding into
`interface{}`: `null`, `bool`, `float64` (here an exact rational), `string`,
`[]interface{}`, or `map[string]interface{}`.  Objects keep their textual
field order (and possible duplicate keys); Go map semantics are recovered by
last-binding-wins lookup. -/
inductive JVal : Type where
  | null : JVal
  | bool (b : Bool) : JVal
  | num (q : ℚ) : JVal
  | str (s : String) : JVal
  | arr (elems : List JVal) : JVal
  | obj (fields : List (String × JVal)) : JVal

/-- Go map lookup `m[k]` on a decoded JSON object: the last binding of `k`
wins (later duplicate keys overwrite earlier ones during decoding); a
missing key yields the zero `interface{}` which, like JSON `null`, is the
nil interface — both are modelled as `JVal.null`. -/
def goMapGet (fs : List (String × JVal)) (k : String) : JVal :=
  match fs.reverse.find? (fun p => p.fst == k) with
  | some p => p.snd
  | none => .null

/-! Scalar parsing helpers mirroring `strconv`. -/

/-- Numeric value of a (known) decimal digit list, most significant first. -/
def digitsToNat (cs : List Char) : Nat :=
  cs.foldl (fun a c => a * 10 + (c.toNat - 48)) 0

/-- Decimal digit parser: all characters must be digits and the list must be
non-empty, as `strconv.ParseInt` requires. -/
def natOfDigitsAux : List Char → Nat → Option Nat
  | [], acc => some acc
  | c :: cs, acc =>
    if c.isDigit then natOfDigitsAux cs (acc * 10 + (c.toNat - 48)) else none

/-- Parse a non-empty all-digit character list as a natural number. -/
def natOfDigits : List Char → Option Nat
  | [] => none
  | c :: cs => natOfDigitsAux (c :: cs) 0

/-- Largest value of the Go `int`/`int64` type. -/
def int64Max : Int := 2 ^ 63 - 1

/-- Smallest value of the Go `int`/`int64` type. -/
def int64Min : Int := -(2 ^ 63)

/-- Shared core of `strconv.Atoi`: parse an optional-signed digit string;
on a syntax error the returned value is 0, on a range error it is the
clamped `int64` bound (Go's `ParseInt` returns the clamped value together
with `ErrRange`, and the datasource ignores the error). -/
def goAtoiCore (negative : Bool) (cs : List Char) : Int :=
  match natOfDigits cs with
  | none => 0
  | some n =>
    let v : Int := if negative then -(n : Int) else (n : Int)
    if v > int64Max then int64Max
    else if v < int64Min then int64Min
    else v

/-- Model of `strconv.Atoi(s)` as used by `isVersionGreater`, where the
error result is discarded. -/
def goAtoi (s : String) : Int :=
  match s.toList with
  | '+' :: cs => goAtoiCore false cs
  | '-' :: cs => goAtoiCore true cs
  | cs => goAtoiCore false cs

/-- Model of `strconv.ParseInt(s, 10, 64)` for callers that check the
error: `none` on a syntax or range error. -/
def parseGoInt64 (s : String) : Option Int :=
  let (negative, cs) :=
    match s.toList with
    | '+' :: cs => (false, cs)
    | '-' :: cs => (true, cs)
    | cs => (false, cs)
  match natOfDigits cs with
  | none => none
  | some n =>
    let v : Int := if negative then -(n : Int) else (n : Int)
    if int64Min ≤ v ∧ v ≤ int64Max then some v else none

/-- Exponent suffix of a float literal, applied to mantissa `m`. -/
def parseGoFloatExp (m : ℚ) (cs : List Char) : Option ℚ :=
  let (eneg, cs0) :=
    match cs with
    | '+' :: r => (false, r)
    | '-' :: r => (true, r)
    | r => (false, r)
  let (ds, rest) := cs0.span Char.isDigit
  if ds.isEmpty ∨ ¬ rest.isEmpty then none
  else
    let e := digitsToNat ds
    some (if eneg then m / (10 : ℚ) ^ e else m * (10 : ℚ) ^ e)

/-- Model of `strconv.ParseFloat(s, 64)` for the plain decimal forms
(optional sign, digits with optional fraction, optional exponent), with the
value carried exactly as a rational.  The exotic inputs Go also accepts
(`Inf`, `NaN`, hex mantissas, underscore separators) do not occur in the
properties verified here. -/
def parseGoFloat (s : String) : Option ℚ :=
  let (neg, cs0) :=
    match s.toList with
    | '+' :: cs => (false, cs)
    | '-' :: cs => (true, cs)
    | cs => (false, cs)
  let (ip, cs1) := cs0.span Char.isDigit
  let (fp, cs2) :=
    match cs1 with
    | '.' :: cs => cs.span Char.isDigit
    | _ => ([], cs1)
  if ip.isEmpty ∧ fp.isEmpty then none
  else
    let mant : ℚ := (digitsToNat ip : ℚ) + (digitsToNat fp : ℚ) / (10 : ℚ) ^ fp.length
    let signed := if neg then -mant else mant
    match cs2 with
    | [] => some signed
    | 'e' :: cs => parseGoFloatExp signed cs
    | 'E' :: cs => parseGoFloatExp signed cs
    | _ => none

/-! Calendar time, mirroring `time.Time` at the granularity the datasource
observes: the broken-down fields parsed from an RFC3339 string.  The
default field values form the zero `time.Time` (January 1, year 1,
00:00:00 UTC), which is what a never-assigned `time.Time` array slot
holds. -/

/-- Broken-down time standing for a Go `time.Time` value. -/
structure GoTime where
  year : Nat := 1
  month : Nat := 1
  day : Nat := 1
  hour : Nat := 0
  minute : Nat := 0
  second : Nat := 0
  nanos : Nat := 0
  offsetMinutes : Int := 0
deriving DecidableEq, Repr

/-- Zero value of `time.Time`. -/
def zeroGoTime : GoTime := {}

/-- Two-digit field of a fixed-width layout. -/
def digit2 (a b : Char) : Option Nat :=
  if a.isDigit ∧ b.isDigit then some ((a.toNat - 48) * 10 + (b.toNat - 48)) else none

/-- Four-digit year field of a fixed-width layout. -/
def digit4 (a b c d : Char) : Option Nat :=
  if a.isDigit ∧ b.isDigit ∧ c.isDigit ∧ d.isDigit then
    some ((((a.toNat - 48) * 10 + (b.toNat - 48)) * 10 + (c.toNat - 48)) * 10 + (d.toNat - 48))
  else none

/-- Gregorian leap-year rule used by `time`. -/
def isLeapYear (y : Nat) : Bool :=
  y % 4 == 0 && (y % 100 != 0 || y % 400 == 0)

/-- Number of days in a month, for day-of-month validation. -/
def daysInMonth (y m : Nat) : Nat :=
  if m = 2 then (if isLeapYear y then 29 else 28)
  else if m = 4 ∨ m = 6 ∨ m = 9 ∨ m = 11 then 30
  else 31

/-- Nanoseconds from the fractional-second digits (first nine digits,
right-padded). -/
def fracNanos (ds : List Char) : Nat :=
  let nine := ds.take 9
  digitsToNat nine * 10 ^ (9 - nine.length)

/-- Numeric UTC offset (in minutes) from the `Z07:00` tail of the RFC3339
layout. -/
def parseOffsetRFC3339 : List Char → Option Int
  | ['Z'] => some 0
  | '+' :: h1 :: h2 :: ':' :: m1 :: m2 :: [] => do
    let h ← digit2 h1 h2
    let m ← digit2 m1 m2
    if h ≤ 23 ∧ m ≤ 59 then pure ((h * 60 + m : Nat) : Int) else none
  | '-' :: h1 :: h2 :: ':' :: m1 :: m2 :: [] => do
    let h ← digit2 h1 h2
    let m ← digit2 m1 m2
    if h ≤ 23 ∧ m ≤ 59 then pure (-((h * 60 + m : Nat) : Int)) else none
  | _ => none

/-- Model of `time.Parse(time.RFC3339, s)`: fixed-width date and clock
fields separated by the literal `-`, `:`, `T` characters, an optional
fractional second, and a `Z` or `±hh:mm` offset, with calendar
validation. -/
def parseRFC3339 (s : String) : Option GoTime :=
  match s.toList with
  | y1 :: y2 :: y3 :: y4 :: '-' :: mo1 :: mo2 :: '-' :: d1 :: d2 :: 'T' ::
    h1 :: h2 :: ':' :: mi1 :: mi2 :: ':' :: s1 :: s2 :: rest => do
    let y ← digit4 y1 y2 y3 y4
    let mo ← digit2 mo1 mo2
    let d ← digit2 d1 d2
    let h ← digit2 h1 h2
    let mi ← digit2 mi1 mi2
    let se ← digit2 s1 s2
    let (ns, offRest) ←
      match rest with
      | '.' :: more =>
        let (ds, r) := more.span Char.isDigit
        if ds.isEmpty then none else some (fracNanos ds, r)
      | r => some ((0 : Nat), r)
    let off ← parseOffsetRFC3339 offRest
    if 1 ≤ mo ∧ mo ≤ 12 ∧ 1 ≤ d ∧ d ≤ daysInMonth y mo ∧ h ≤ 23 ∧ mi ≤ 59 ∧ se ≤ 59 then
      pure ⟨y, mo, d, h, mi, se, ns, off⟩
    else none
  | _ => none

/-! Default textual formatting, mirroring `fmt.Sprintf("%v", v)` on values
decoded from JSON. -/

/-- Decimal expansion of the fractional part `num/den` (`num < den`); the
fuel bound covers every `float64` value, whose expansion terminates. -/
def fracDigitsAux : Nat → Nat → Nat → String
  | 0, _, _ => ""
  | _, 0, _ => ""
  | fuel + 1, num, den =>
    let d := num * 10 / den
    let r := num * 10 % den
    toString d ++ fracDigitsAux fuel r den

/-- Textual form of a JSON number under `%v`, which for `float64` is the
shortest `%g` form: integer-valued numbers print as plain integers, others
with their decimal expansion.  (The model carries numbers exactly, so the
expansion is the shortest form for every decimal literal that round-trips;
the large-magnitude exponent notation of `%g` is outside the verified
properties.) -/
def formatRatGo (q : ℚ) : String :=
  let sign := if q < 0 then "-" else ""
  let na := q.num.natAbs
  let ip := na / q.den
  let rem := na % q.den
  if rem = 0 then sign ++ toString ip
  else sign ++ toString ip ++ "." ++ fracDigitsAux 1200 rem q.den

/-- Keep only the last binding of each key, as a Go map built by JSON
decoding would. -/
def dedupKeysLast : List (String × String) → List (String × String)
  | [] => []
  | (k, v) :: rest =>
    if rest.any (fun p => p.fst == k) then dedupKeysLast rest
    else (k, v) :: dedupKeysLast rest

/-- Insert an entry into a key-sorted entry list. -/
def insertSortedByKey (p : String × String) : List (String × String) → List (String × String)
  | [] => [p]
  | q :: rest =>
    if decide (p.fst < q.fst) then p :: q :: rest else q :: insertSortedByKey p rest

/-- Sort formatted map entries by key, as `fmt` does when printing a map. -/
def sortEntriesByKey (ps : List (String × String)) : List (String × String) :=
  ps.foldr insertSortedByKey []

mutual

/-- Model of `fmt.Sprintf("%v", v)` for a JSON-decoded `interface{}`. -/
def goFormat : JVal → String
  | .null => "<nil>"
  | .bool b => cond b "true" "false"
  | .num q => formatRatGo q
  | .str s => s
  | .arr xs => "[" ++ String.intercalate " " (goFormatList xs) ++ "]"
  | .obj fs =>
    "map[" ++ String.intercalate " "
      ((sortEntriesByKey (dedupKeysLast (goFormatEntries fs))).map
        (fun p => p.fst ++ ":" ++ p.snd)) ++ "]"

/-- Elementwise formatting of a JSON array. -/
def goFormatList : List JVal → List String
  | [] => []
  | x :: xs => goFormat x :: goFormatList xs

/-- Elementwise formatting of JSON object fields. -/
def goFormatEntries : List (String × JVal) → List (String × String)
  | [] => []
  | (k, v) :: fs => (k, goFormat v) :: goFormatEntries fs

end

/-! Data frames and responses, mirroring `backend.DataResponse` and
`data.Frame` at the granularity the datasource constructs them. -/

/-- Coerced cell payload stored in `columnValues` by `handleTableQuery`:
the `interface{}` slot after the row-coercion switch (strings kept,
`float64` kept, booleans kept, arrays and maps formatted to strings).
JSON `null` and a missing key both leave the nil interface, modelled as
`Option.none` around this type. -/
inductive CVal : Type where
  | str (s : String) : CVal
  | num (q : ℚ) : CVal
  | bool (b : Bool) : CVal
deriving DecidableEq, Repr

/-- Typed cell storage of one `data.Field`, as built by the datasource.
`data.NewField` accepts only concrete typed slices, so every constructor
here corresponds to a supported vector type actually handed to it
(`[]string`, `[]int32`, `[]float64`, `[]time.Time`); the raw
`[]interface{}` the table shaper passes in its `float64`/`bool` branches
is NOT representable — `NewField` panics on it (see `buildFieldData`). -/
inductive FieldData : Type where
  | strs (cells : List String) : FieldData
  | ints (cells : List Int) : FieldData
  | floats (cells : List ℚ) : FieldData
  | times (cells : List GoTime) : FieldData
deriving DecidableEq, Repr

/-- Number of cells held by a field. -/
def FieldData.length : FieldData → Nat
  | .strs cells => cells.length
  | .ints cells => cells.length
  | .floats cells => cells.length
  | .times cells => cells.length

/-- One `data.Field`: a name, optional labels (the dci value column's
`unit` label), optional value→color display mappings (the fixed alarm and
status color tables), and the cells. -/
structure Field where
  name : String
  labels : List (String × String) := []
  valueColors : List (String × String) := []
  fdata : FieldData
deriving DecidableEq, Repr

/-- Number of cells of a field. -/
def Field.length (f : Field) : Nat := f.fdata.length

/-- Whether the `i`-th cell of a field is the null/empty placeholder. -/
def Field.cellIsEmpty (f : Field) (i : Nat) : Bool :=
  match f.fdata with
  | .strs cells =>
    match cells.get? i with
    | some "" => true
    | _ => false
  | _ => false

/-- One `data.Frame`. -/
structure Frame where
  name : String
  fields : List Field
deriving DecidableEq, Repr

/-- The `backend.Status` taxonomy used by the datasource. -/
inductive Status : Type where
  | badRequest
  | unauthorized
  | forbidden
  | notFound
  | internal
  | unknown
deriving DecidableEq, Repr

/-- One query's `backend.DataResponse`: frames on success, a status and
message (via `backend.ErrDataResponse`) on failure. -/
inductive DataResponse : Type where
  | ok (frames : List Frame) : DataResponse
  | err (status : Status) (msg : String) : DataResponse
deriving DecidableEq, Repr

/-- Translation of `httpStatusToBackendStatus` (`datasource.go`). -/
def httpStatusToBackendStatus (code : Nat) : Status :=
  if code = 400 then .badRequest
  else if code = 401 then .unauthorized
  else if code = 403 then .forbidden
  else if code = 404 then .notFound
  else if 500 ≤ code ∧ code < 600 then .internal
  else .unknown

/-- Translation of `joinURL` (`datasource.go`): exactly one slash between
the trimmed base and path. -/
def joinURL (base path : String) : String :=
  (base.dropRightWhile (· == '/')) ++ "/" ++ (path.dropWhile (· == '/'))

/-! Remote side: settings, requests and the abstract HTTP environment. -/

/-- Plugin settings as produced by `models.LoadPluginSettings`; the
handlers below are modelled after a successful settings load (a load
failure produces the same per-query `BadRequest` isolation as a JSON
unmarshal failure). -/
structure Settings where
  serverAddress : String
  apiKey : String
deriving DecidableEq, Repr

/-- Outgoing HTTP request as the datasource builds it (every request also
carries the bearer-token Authorization header, which is constant per
settings and therefore not repeated here). -/
structure RemoteReq where
  method : String
  url : String
  body : Option JVal

/-- Remote call outcome: an HTTP status with a decoded JSON body, or a
transport failure (connect/read error). -/
inductive RemoteResp : Type where
  | http (status : Nat) (body : JVal) : RemoteResp
  | netErr (msg : String) : RemoteResp

/-- The remote server, abstracted as a function from requests to
responses. -/
abbrev RemoteEnv : Type := RemoteReq → RemoteResp

/-- Decoding of a JSON value into a Go `map[string]string`
(`reasonResp`); fails if any field value is not a string, succeeds with
the nil map on `null`. -/
def decodeStringMap : JVal → Option (List (String × String))
  | .null => some []
  | .obj fs =>
    fs.mapM (fun p =>
      match p.snd with
      | .str s => some (p.fst, s)
      | _ => none)
  | _ => none

/-- Lookup in a decoded `map[string]string`, last binding wins, zero value
`""` when missing. -/
def getStrEntry (m : List (String × String)) (k : String) : String :=
  match m.reverse.find? (fun p => p.fst == k) with
  | some p => p.snd
  | none => ""

/-- Shared HTTP status handling of the alarm, table and object-status
handlers: a 401 always becomes the fixed unauthorized message before the
body is examined; any other non-200 carries the remote `reason` field when
the body decodes as a string map, else the generic message. -/
def statusGate (status : Nat) (body : JVal) : Except (Status × String) JVal :=
  if status = 401 then .error (.unauthorized, "Unauthorized: Invalid API key")
  else if status ≠ 200 then
    match decodeStringMap body with
    | some m => .error (httpStatusToBackendStatus status, "Request error: " ++ getStrEntry m "reason")
    | none => .error (httpStatusToBackendStatus status, "Request error")
  else .ok body

/-! Dynamic Table Shaper (`handleTableQuery` with `decodeOrderedJSON`). -/

/-- Decoding of one remote row into a Go `map[string]interface{}`: an
object keeps its fields (lookups are last-binding-wins), JSON `null`
decodes to the nil map, anything else is an unmarshal error. -/
def decodeRowMap : JVal → Option (List (String × JVal))
  | .obj fs => some fs
  | .null => some []
  | _ => none

/-- Decoding of the response body into `[]map[string]interface{}`
elementwise. -/
def decodeRowList : List JVal → Option (List (List (String × JVal)))
  | [] => some []
  | x :: xs =>
    match decodeRowMap x, decodeRowList xs with
    | some r, some rs => some (r :: rs)
    | _, _ => none

/-- Decoding of the full response body into `[]map[string]interface{}`:
`null` gives the nil slice, a non-array is an unmarshal error. -/
def decodeRowsArray : JVal → Option (List (List (String × JVal)))
  | .arr xs => decodeRowList xs
  | .null => some []
  | _ => none

/-- Key order captured by `decodeOrderedJSON` from the first row: every
key occurrence in textual order; a non-object is a decode error. -/
def decodeOrderedKeys : JVal → Option (List String)
  | .obj fs => some (fs.map Prod.fst)
  | _ => none

/-- Row-coercion switch of `handleTableQuery`: `nil` stays nil, strings,
`float64` and booleans are kept, arrays and maps (the `default` case) are
formatted with `%v`.  (The `int`/`int64` cases of the Go switch are
unreachable: `encoding/json` only produces `float64` numbers.) -/
def coerceCell : JVal → Option CVal
  | .null => none
  | .str s => some (.str s)
  | .num q => some (.num q)
  | .bool b => some (.bool b)
  | .arr xs => some (.str (goFormat (.arr xs)))
  | .obj fs => some (.str (goFormat (.obj fs)))

/-- String rendering of a coerced cell in the string-column branch:
`""` for nil, `%v` otherwise. -/
def cellToStr : Option CVal → String
  | none => ""
  | some (.str s) => s
  | some (.num q) => formatRatGo q
  | some (.bool b) => cond b "true" "false"

/-- Whether the column-construction switch selects the `float64`/`bool`
branch on these cells, i.e. hands the raw `[]interface{}` slice to
`data.NewField`. -/
def leadSelectsRaw : List (Option CVal) → Bool
  | some (.num _) :: _ => true
  | some (.bool _) :: _ => true
  | _ => false

/-- Column construction switch of `handleTableQuery`: the branch is chosen
by the FIRST cell (`values[0]`).  A leading `float64` or `bool` hands the
raw `[]interface{}` straight to `data.NewField(columnName, nil, values)` —
an unsupported vector type on which the Grafana SDK's `NewField` PANICS,
modelled as `none`.  Any other non-nil leading value yields a `[]string`
column (`%v` per cell, `""` for nil); an empty column or a nil leading
cell yields `make([]string, len(values))`, a column of empty strings
(both supported types). -/
def buildFieldData (values : List (Option CVal)) : Option FieldData :=
  match values with
  | [] => some (.strs [])
  | none :: _ => some (.strs (List.replicate values.length ""))
  | some (.num _) :: _ => none
  | some (.bool _) :: _ => none
  | some (.str _) :: _ => some (.strs (values.map cellToStr))

/-- One output column of the Dynamic Table Shaper (`none` is the
`NewField` panic). -/
def buildField (name : String) (values : List (Option CVal)) : Option Field :=
  (buildFieldData values).map (fun fd => { name := name, fdata := fd })

/-- Cells of the canonical column `k`: one coerced lookup per row. -/
def columnCells (rows : List (List (String × JVal))) (k : String) : List (Option CVal) :=
  rows.map (fun r => coerceCell (goMapGet r k))

/-- The column loop over the canonical keys; the first panicking column
aborts the handler (`none`). -/
def buildFields (rows : List (List (String × JVal))) : List String → Option (List Field)
  | [] => some []
  | k :: rest =>
    match buildField k (columnCells rows k), buildFields rows rest with
    | some f, some fs => some (f :: fs)
    | _, _ => none

/-- Response-shaping stage of `handleTableQuery` on the decoded remote
body; `none` is a runtime panic.  When the decoded row list is non-empty
the body is re-decoded token-wise: the leading `[` always succeeds there
(so the `expected array` branch is dead), `dec.More()` is true (so the
`empty array` branch is dead — an empty JSON array instead takes the
`else` path and yields a frame with no fields), and the first row's key
order is captured by `decodeOrderedJSON`. -/
def shapeTableBody (frameName : String) (body : JVal) : Option DataResponse :=
  match decodeRowsArray body with
  | none => some (.err .badRequest "failed to parse response")
  | some rows =>
    if rows.length > 0 then
      match body with
      | .arr (first :: _) =>
        match decodeOrderedKeys first with
        | none => some (.err .badRequest "failed to parse first row")
        | some ks =>
          (buildFields rows ks).map (fun fs => .ok [{ name := frameName, fields := fs }])
      | _ => some (.err .badRequest "expected array")
    else some (.ok [{ name := frameName, fields := [] }])

/-! Queries and per-query JSON decoding. -/

/-- Raw `q.JSON` of one query: either bytes that are not valid JSON, or
the decoded value. -/
inductive QueryJSON : Type where
  | malformed (raw : String) : QueryJSON
  | val (v : JVal) : QueryJSON

/-- One `backend.DataQuery`: its `RefID`, its raw JSON parameters, and the
textually formatted time range (used only by the dciValues handler, which
formats `q.TimeRange` with `time.UnixDate` into the request URL). -/
structure Query where
  refID : String
  json : QueryJSON
  timeFrom : String := ""
  timeTo : String := ""

/-- String field of a struct decode: JSON `null` and a missing key leave
the zero value `""`; a value of any other non-string type is an unmarshal
error. -/
def getStrField (fs : List (String × JVal)) (k : String) : Option String :=
  match goMapGet fs k with
  | .str s => some s
  | .null => some ""
  | _ => none

/-- Signed 32-bit integer field of a struct decode (for `int32` struct
fields): the JSON number must be integral and in range. -/
def getI32Field (fs : List (String × JVal)) (k : String) : Option Int :=
  match goMapGet fs k with
  | .num q => if q.den = 1 ∧ -(2 ^ 31) ≤ q.num ∧ q.num < 2 ^ 31 then some q.num else none
  | .null => some 0
  | _ => none

/-- Calendar field of a struct decode (`time.Time` fields unmarshal from
an RFC3339 string). -/
def getTimeField (fs : List (String × JVal)) (k : String) : Option GoTime :=
  match goMapGet fs k with
  | .str s => parseRFC3339 s
  | .null => some zeroGoTime
  | _ => none

/-- Decoded `queryModel` struct (`sourceObjectId`, `dciId`). -/
structure QueryModel where
  sourceObjectId : String
  dciId : String
deriving DecidableEq, Repr

/-- Unmarshal of `q.JSON` into `queryModel`: invalid JSON, a non-object
top level, or a wrongly typed field is an error; `null` and missing fields
leave the zero struct. -/
def decodeQueryModel : QueryJSON → Option QueryModel
  | .malformed _ => none
  | .val .null => some { sourceObjectId := "", dciId := "" }
  | .val (.obj fs) => do
    let s ← getStrField fs "sourceObjectId"
    let d ← getStrField fs "dciId"
    pure { sourceObjectId := s, dciId := d }
  | .val _ => none

/-- Unmarshal of `q.JSON` into `map[string]interface{}` (the table
handler's query model). -/
def decodeQueryMap : QueryJSON → Option (List (String × JVal))
  | .malformed _ => none
  | .val v => decodeRowMap v

/-! Alarm queries (`handleAlarmQuery` / `query`). -/

/-- URL the alarms handler posts to (`statusURL` in `query`,
`datasource.go` line 139): the server-info path. -/
def alarmsQueryURL (cfg : Settings) : String :=
  joinURL cfg.serverAddress "v1/server-info"

/-- URL of the health check (`CheckHealth`, `datasource.go` line 316). -/
def healthCheckURL (cfg : Settings) : String :=
  joinURL cfg.serverAddress "v1/server-info"

/-- Decoded `alarmResponse` record. -/
structure Alarm where
  id : Int := 0
  severity : String := ""
  state : String := ""
  source : String := ""
  message : String := ""
  count : Int := 0
  ackBy : String := ""
  created : GoTime := zeroGoTime
  lastChange : GoTime := zeroGoTime
deriving DecidableEq, Repr

/-- Unmarshal of one element of `[]alarmResponse`. -/
def decodeAlarm : JVal → Option Alarm
  | .null => some {}
  | .obj fs => do
    let i ← getI32Field fs "Id"
    let sev ← getStrField fs "Severity"
    let st ← getStrField fs "State"
    let so ← getStrField fs "Source"
    let me ← getStrField fs "Message"
    let c ← getI32Field fs "Count"
    let ab ← getStrField fs "Ack/Resolve by"
    let cr ← getTimeField fs "Created"
    let lc ← getTimeField fs "Last Change"
    pure { id := i, severity := sev, state := st, source := so, message := me,
           count := c, ackBy := ab, created := cr, lastChange := lc }
  | _ => none

/-- Elementwise unmarshal of the alarm array. -/
def decodeAlarmRows : List JVal → Option (List Alarm)
  | [] => some []
  | x :: xs =>
    match decodeAlarm x, decodeAlarmRows xs with
    | some a, some as => some (a :: as)
    | _, _ => none

/-- Unmarshal of the alarms response body into `[]alarmResponse`. -/
def decodeAlarms : JVal → Option (List Alarm)
  | .arr xs => decodeAlarmRows xs
  | .null => some []
  | _ => none

/-- Static severity→color value mappings attached to the Severity
column. -/
def severityColorTable : List (String × String) :=
  [("Normal", "rgb(0, 137, 0)"), ("Warning", "rgb(0, 142, 145)"),
   ("Minor", "rgb(201, 198, 0)"), ("Major", "rgb(223, 102, 0)"),
   ("Critical", "rgb(160, 0, 0)"), ("Unknown", "rgb(33, 33, 248)"),
   ("Unmanaged", "rgb(113, 113, 113)"), ("Disabled", "rgb(100, 41, 0)"),
   ("Testing", "rgb(138, 0, 143)")]

/-- Static state→color value mappings attached to the State column. -/
def stateColorTable : List (String × String) :=
  [("Outstanding", "yellow"), ("Acknowledged", "greenyellow"), ("Resolved", "green")]

/-- Fixed-schema alarms frame: nine named columns in source order. -/
def alarmFrame (as : List Alarm) : Frame :=
  { name := "alarms",
    fields :=
      [{ name := "Id", fdata := .ints (as.map (·.id)) },
       { name := "Severity", valueColors := severityColorTable, fdata := .strs (as.map (·.severity)) },
       { name := "State", valueColors := stateColorTable, fdata := .strs (as.map (·.state)) },
       { name := "Source", fdata := .strs (as.map (·.source)) },
       { name := "Message", fdata := .strs (as.map (·.message)) },
       { name := "Count", fdata := .ints (as.map (·.count)) },
       { name := "Ack/Resolve by", fdata := .strs (as.map (·.ackBy)) },
       { name := "Created", fdata := .times (as.map (·.created)) },
       { name := "Last Change", fdata := .times (as.map (·.lastChange)) }] }

/-- Body-shaping stage of the alarms handler. -/
def shapeAlarms (body : JVal) : DataResponse :=
  match decodeAlarms body with
  | none => .err .badRequest "failed to parse response"
  | some as => .ok [alarmFrame as]

/-- Local (pre-network) phase of one alarms query: unmarshal the query
JSON, validate and encode `rootObjectId`, and build the POST request. -/
def alarmLocal (cfg : Settings) (qj : QueryJSON) : Except DataResponse RemoteReq :=
  match decodeQueryModel qj with
  | none => .error (.err .badRequest "json unmarshal")
  | some qm =>
    if qm.sourceObjectId = "" then
      .ok { method := "POST", url := alarmsQueryURL cfg, body := some (.obj []) }
    else
      match parseGoInt64 qm.sourceObjectId with
      | none => .error (.err .badRequest "invalid rootObjectId")
      | some n =>
        .ok { method := "POST", url := alarmsQueryURL cfg,
              body := some (.obj [("rootObjectId", .num (n : ℚ))]) }

/-- Network-and-shaping phase shared by the alarm and table handlers:
transport failure, then the common status gate, then the body shaper. -/
def remotePhase (env : RemoteEnv) (req : RemoteReq) (shape : JVal → DataResponse) : DataResponse :=
  match env req with
  | .netErr m => .err .badRequest ("failed to connect to server: " ++ m)
  | .http status body =>
    match statusGate status body with
    | .error e => .err e.fst e.snd
    | .ok b => shape b

/-- Processing of one alarms query. -/
def alarmPerQuery (env : RemoteEnv) (cfg : Settings) (q : Query) : DataResponse :=
  match alarmLocal cfg q.json with
  | .error e => e
  | .ok req => remotePhase env req shapeAlarms

/-! Generic table queries (`handleTableQuery` and its summary-table
specialization; the object-query specialization differs only in endpoint,
required fields and body formatter, which the configuration abstracts). -/

/-- Translation of `tableQueryConfig`. -/
structure TableQueryConfig where
  url : String
  frameName : String
  required : List (String × String)
  formatBody : List (String × JVal) → List (String × JVal)

/-- Body formatter of the summary-table specialization
(`handleSummaryTableQuery`). -/
def summaryFormatBody (qm : List (String × JVal)) : List (String × JVal) :=
  (match goMapGet qm "sourceObjectId" with
   | .str s =>
     if s ≠ "" then
       match parseGoInt64 s with
       | some n => [("rootObjectId", JVal.num (n : ℚ))]
       | none => []
     else []
   | _ => []) ++
  (match goMapGet qm "summaryTableId" with
   | .str s =>
     if s ≠ "" then
       match parseGoInt64 s with
       | some n => [("tableId", JVal.num (n : ℚ))]
       | none => []
     else []
   | _ => [])

/-- Configuration passed by `handleSummaryTableQuery`. -/
def summaryTableConfig : TableQueryConfig :=
  { url := "/v1/grafana/infinity/summary-table",
    frameName := "summary-table",
    required := [("summaryTableId", "tableId is required")],
    formatBody := summaryFormatBody }

/-- Local phase of one table query.  The required-field loop of the source
writes a `BadRequest` response on a missing field but then `continue`s the
inner field loop only, and every later path re-assigns the same response
slot, so that write never survives to the final response map and the local
phase depends only on the unmarshal result and the formatted body. -/
def tableLocal (cfg : Settings) (tq : TableQueryConfig) (qj : QueryJSON) :
    Except DataResponse RemoteReq :=
  match decodeQueryMap qj with
  | none => .error (.err .badRequest "json unmarshal")
  | some qm =>
    .ok { method := "POST", url := joinURL cfg.serverAddress tq.url,
          body := some (.obj (tq.formatBody qm)) }

/-- Processing of one table query; `none` is a runtime panic (a 200 body
whose first object leads some column with a number or boolean). -/
def tablePerQuery (env : RemoteEnv) (cfg : Settings) (tq : TableQueryConfig) (q : Query) :
    Option DataResponse :=
  match tableLocal cfg tq q.json with
  | .error e => some e
  | .ok req =>
    match env req with
    | .netErr m => some (.err .badRequest ("failed to connect to server: " ++ m))
    | .http status body =>
      match statusGate status body with
      | .error e => some (.err e.fst e.snd)
      | .ok b => shapeTableBody tq.frameName b

/-! Time-series queries (`handleDciValues`). -/

/-- Decoded `dciValueResponse`. -/
structure DciSeries where
  description : String
  unitName : String
  values : List (String × String)
deriving DecidableEq, Repr

/-- Unmarshal of one element of the `values` array. -/
def decodeDciRow : JVal → Option (String × String)
  | .null => some ("", "")
  | .obj fs => do
    let t ← getStrField fs "timestamp"
    let v ← getStrField fs "value"
    pure (t, v)
  | _ => none

/-- Elementwise unmarshal of the `values` array. -/
def decodeDciRows : List JVal → Option (List (String × String))
  | [] => some []
  | x :: xs =>
    match decodeDciRow x, decodeDciRows xs with
    | some r, some rs => some (r :: rs)
    | _, _ => none

/-- Unmarshal of the dci response body into `dciValueResponse`. -/
def decodeDciSeries : JVal → Option DciSeries
  | .null => some { description := "", unitName := "", values := [] }
  | .obj fs => do
    let d ← getStrField fs "description"
    let u ← getStrField fs "unitName"
    let vs ←
      match goMapGet fs "values" with
      | .arr xs => decodeDciRows xs
      | .null => some []
      | _ => none
    pure { description := d, unitName := u, values := vs }
  | _ => none

/-- Row loop of `handleDciValues` over the pre-zeroed `times`/`values`
arrays.  A timestamp parse failure writes a `BadRequest` response and
`continue`s the ROW loop (so that row keeps the zero time and, because the
value parse is skipped, the zero value); a value parse failure likewise
leaves the zero value.  The third component records the last error
response written by the loop — which the handler then overwrites with the
unconditional success write (source line 574). -/
def dciLoop : List (String × String) → List GoTime × List ℚ × Option String
  | [] => ([], [], none)
  | (ts, v) :: rest =>
    let (tl, vl, e) := dciLoop rest
    match parseRFC3339 ts with
    | none =>
      (zeroGoTime :: tl, 0 :: vl,
        match e with
        | some m => some m
        | none => some "failed to parse timestamp")
    | some t =>
      match parseGoFloat v with
      | none =>
        (t :: tl, 0 :: vl,
          match e with
          | some m => some m
          | none => some "failed to parse value")
      | some q => (t :: tl, q :: vl, e)

/-- Body-shaping stage of the dciValues handler: the final success write
of the source replaces any error response recorded during the row loop, so
the shaped frame is returned whenever the body unmarshals. -/
def shapeDciBody (body : JVal) : DataResponse :=
  match decodeDciSeries body with
  | none => .err .badRequest "failed to parse response"
  | some ds =>
    let r := dciLoop ds.values
    .ok [{ name := ds.description,
           fields :=
             [{ name := "time", fdata := .times r.fst },
              { name := "value", labels := [("unit", ds.unitName)], fdata := .floats r.snd.fst }] }]

/-- History URL of one dci query. -/
def dciHistoryURL (cfg : Settings) (qm : QueryModel) (tf tt : String) : String :=
  joinURL cfg.serverAddress
    ("v1/objects/" ++ qm.sourceObjectId ++ "/data-collection/" ++ qm.dciId ++
     "/history?timeFrom=" ++ tf ++ "&timeTo=" ++ tt)

/-- Local phase of one dci query. -/
def dciLocal (cfg : Settings) (tf tt : String) (qj : QueryJSON) : Except DataResponse RemoteReq :=
  match decodeQueryModel qj with
  | none => .error (.err .badRequest "json unmarshal")
  | some qm => .ok { method := "GET", url := dciHistoryURL cfg qm tf tt, body := none }

/-- Processing of one dci query.  Unlike every other handler, the source
inspects neither `StatusCode` 401 nor any other status: the body is
unmarshalled regardless of the HTTP status. -/
def dciPerQuery (env : RemoteEnv) (cfg : Settings) (q : Query) : DataResponse :=
  match dciLocal cfg q.timeFrom q.timeTo q.json with
  | .error e => e
  | .ok req =>
    match env req with
    | .netErr m => .err .badRequest ("failed to connect to server: " ++ m)
    | .http _ body => shapeDciBody body

/-! Object status queries (`handleObjectStatusQuery`). -/

/-- Decoded `objectStatusResponse` record. -/
structure ObjStatus where
  name : String
  status : Int
deriving DecidableEq, Repr

/-- Unmarshal of one element of `[]objectStatusResponse`. -/
def decodeObjStatus : JVal → Option ObjStatus
  | .null => some { name := "", status := 0 }
  | .obj fs => do
    let n ← getStrField fs "Name"
    let s ← getI32Field fs "Status"
    pure { name := n, status := s }
  | _ => none

/-- Elementwise unmarshal of the object-status array. -/
def decodeObjStatusRows : List JVal → Option (List ObjStatus)
  | [] => some []
  | x :: xs =>
    match decodeObjStatus x, decodeObjStatusRows xs with
    | some o, some os => some (o :: os)
    | _, _ => none

/-- Unmarshal of the object-status response body. -/
def decodeObjStatuses : JVal → Option (List ObjStatus)
  | .arr xs => decodeObjStatusRows xs
  | .null => some []
  | _ => none

/-- The fixed nine-entry status color palette (`color` in
`handleObjectStatusQuery`), indexed by the integer status code. -/
def statusColorPalette : List String :=
  ["rgb(0, 137, 0)", "rgb(0, 142, 145)", "rgb(201, 198, 0)",
   "rgb(223, 102, 0)", "rgb(160, 0, 0)", "rgb(33, 33, 248)",
   "rgb(113, 113, 113)", "rgb(100, 41, 0)", "rgb(138, 0, 143)"]

/-- Frame construction of the object-status handler: one frame per object
whose single Name field maps the object's name to
`color[obj.Status]`.  The palette access is NOT bounds-checked in the
source; a status outside 0..8 indexes out of range, a runtime panic,
modelled as `none`. -/
def shapeObjectStatusFrames : List ObjStatus → Option (List Frame)
  | [] => some []
  | o :: rest =>
    match (if 0 ≤ o.status then statusColorPalette.get? o.status.toNat else none) with
    | none => none
    | some c =>
      (shapeObjectStatusFrames rest).map
        (fun fs =>
          { name := o.name,
            fields := [{ name := "Name", valueColors := [(o.name, c)], fdata := .strs [o.name] }] } :: fs)

/-- Endpoint of the object-status handler. -/
def objectStatusURL (cfg : Settings) : String :=
  joinURL cfg.serverAddress "/v1/grafana/objects-status"

/-- Local phase of one object-status query; an unparseable non-empty
`sourceObjectId` silently omits `rootObjectId` (`if err == nil`). -/
def objectStatusLocal (cfg : Settings) (qj : QueryJSON) : Except DataResponse RemoteReq :=
  match decodeQueryModel qj with
  | none => .error (.err .badRequest "json unmarshal")
  | some qm =>
    let reqBody :=
      if qm.sourceObjectId ≠ "" then
        match parseGoInt64 qm.sourceObjectId with
        | some n => [("rootObjectId", JVal.num (n : ℚ))]
        | none => []
      else []
    .ok { method := "POST", url := objectStatusURL cfg, body := some (.obj reqBody) }

/-- Processing of one object-status query; `none` is a runtime panic. -/
def objectStatusPerQuery (env : RemoteEnv) (cfg : Settings) (q : Query) : Option DataResponse :=
  match objectStatusLocal cfg q.json with
  | .error e => some e
  | .ok req =>
    match env req with
    | .netErr m => some (.err .badRequest ("failed to connect to server: " ++ m))
    | .http status body =>
      match statusGate status body with
      | .error e => some (.err e.fst e.snd)
      | .ok b =>
        match decodeObjStatuses b with
        | none => some (.err .badRequest "failed to parse response")
        | some os => (shapeObjectStatusFrames os).map .ok

/-! Batch processing (`backend.Responses` is a map from `RefID` to
`DataResponse`; insertion overwrites). -/

/-- Response map, keyed by `RefID`. -/
abbrev ResponseMap : Type := List (String × DataResponse)

/-- Map insertion `response.Responses[refID] = v` (overwrite on an
existing key). -/
def setResponse (m : ResponseMap) (k : String) (v : DataResponse) : ResponseMap :=
  if (List.any m (fun p => p.fst == k)) then
    List.map (fun p => if p.fst == k then (k, v) else p) m
  else m ++ [(k, v)]

/-- Lookup in a response map. -/
def lookupResponse (m : ResponseMap) (k : String) : Option DataResponse :=
  (List.find? (fun p => p.fst == k) m).map Prod.snd

/-- The per-handler query loop: one response slot written per query, in
input order. -/
def runBatch (f : Query → DataResponse) (qs : List Query) : ResponseMap :=
  qs.foldl (fun m q => setResponse m q.refID (f q)) []

/-- The object-status query loop; a panic (`none`) in one query aborts the
whole batch. -/
def runBatchOpt (f : Query → Option DataResponse) (qs : List Query) : Option ResponseMap :=
  qs.foldlM (fun m q => (f q).map (fun v => setResponse m q.refID v)) []

/-- Batch entry point of the alarms handler. -/
def handleAlarmQueryBatch (env : RemoteEnv) (cfg : Settings) (qs : List Query) : ResponseMap :=
  runBatch (alarmPerQuery env cfg) qs

/-- Batch entry point of the dciValues handler. -/
def handleDciValuesBatch (env : RemoteEnv) (cfg : Settings) (qs : List Query) : ResponseMap :=
  runBatch (dciPerQuery env cfg) qs

/-- Batch entry point of the table handlers; a panic in one query aborts
the whole batch (`none`). -/
def handleTableQueryBatch (env : RemoteEnv) (cfg : Settings) (tq : TableQueryConfig)
    (qs : List Query) : Option ResponseMap :=
  runBatchOpt (tablePerQuery env cfg tq) qs

/-- Batch entry point of the object-status handler. -/
def handleObjectStatusBatch (env : RemoteEnv) (cfg : Settings) (qs : List Query) :
    Option ResponseMap :=
  runBatchOpt (objectStatusPerQuery env cfg) qs

/-- The fixed unauthorized error every status-gated handler returns on a
401. -/
def unauthorizedResp : DataResponse :=
  .err .unauthorized "Unauthorized: Invalid API key"

/-! Version comparator (`isVersionGreater`). -/

/-- Splitting accumulator for `strings.Split(s, ".")`. -/
def splitDotAux : List Char → List Char → List (List Char)
  | [], acc => [acc.reverse]
  | '.' :: cs, acc => acc.reverse :: splitDotAux cs []
  | c :: cs, acc => splitDotAux cs (c :: acc)

/-- Model of `strings.Split(s, ".")`: the empty string yields `[""]`,
adjacent dots yield empty segments. -/
def goSplitDot (s : String) : List String :=
  (splitDotAux s.toList []).map List.asString

/-- Segment value at index `i` of the split version string: `Atoi` of the
segment, 0 past the end (the loop leaves the default `int`). -/
def segAt (parts : List String) (i : Nat) : Int :=
  match parts.get? i with
  | some s => goAtoi s
  | none => 0

/-- The comparison loop of `isVersionGreater`, running `fuel` more
iterations starting at index `i`. -/
def versionLoop (aParts rParts : List String) : Nat → Nat → Bool
  | _, 0 => true
  | i, fuel + 1 =>
    let a := segAt aParts i
    let r := segAt rParts i
    if a > r then true
    else if a < r then false
    else versionLoop aParts rParts (i + 1) fuel

/-- Translation of `isVersionGreater` (`datasource.go` lines 261-284). -/
def isVersionGreater (actualVersion requireVersion : String) : Bool :=
  let aParts := goSplitDot actualVersion
  let rParts := goSplitDot requireVersion
  versionLoop aParts rParts 0 (max aParts.length rParts.length)

/-! Health check (`CheckHealth`). -/

/-- Health check status. -/
inductive HealthStatus : Type where
  | ok
  | error
deriving DecidableEq, Repr

/-- The `backend.CheckHealthResult` pair. -/
structure HealthResult where
  status : HealthStatus
  message : String
deriving DecidableEq, Repr

/-- Translation of `CheckHealth`.  The unmarshal error of the 200 body is
ignored (a non-object body just leaves the nil map), after which
`data["version"].(string)` is an unchecked interface type assertion: when
the field is absent or not a string the assertion panics, modelled as
`none`. -/
def checkHealth (env : RemoteEnv) (cfg : Settings) : Option HealthResult :=
  if cfg.apiKey = "" then some { status := .error, message := "API key is missing" }
  else if cfg.serverAddress = "" then some { status := .error, message := "Server address is missing" }
  else
    match env { method := "GET", url := healthCheckURL cfg, body := none } with
    | .netErr m => some { status := .error, message := "Failed to connect to server: " ++ m }
    | .http status body =>
      if status ≠ 200 then
        some { status := .error, message := "Server returned status code: " ++ toString status }
      else
        match (match body with | .obj fs => goMapGet fs "version" | _ => .null) with
        | .str v =>
          if isVersionGreater v "5.2.4" then
            some { status := .ok, message := "Data source is working" }
          else
            some { status := .error,
                   message := "Server version (current: " ++ v ++ ") should be greater than 5.2.4" }
        | _ => none

/-! List proxy (`handleQuery`). -/

/-- The comparator passed to `sort.Slice`: string `name` fields compare
ordinally; a pair with any non-string (or missing) `name` compares
`false`. -/
def objectsLess (a b : List (String × JVal)) : Bool :=
  match goMapGet a "name", goMapGet b "name" with
  | .str x, .str y => decide (x < y)
  | _, _ => false

/-- Elementwise type assertion of the `objects` array: every element must
be a JSON object. -/
def decodeObjElems : List JVal → Option (List (List (String × JVal)))
  | [] => some []
  | .obj fs :: xs => (decodeObjElems xs).map (fs :: ·)
  | _ => none

/-- Outcome of the list proxy: the original bytes passed through, or the
re-marshalled response with the re-sorted `objects` array. -/
inductive ProxyResult : Type where
  | passthrough : ProxyResult
  | sortedObjects (objs : List (List (String × JVal))) : ProxyResult

/-- Contract of Go `sort.Slice` with comparator `less`: the output is a
permutation of the input that is sorted with respect to `less`.  The
stdlib sort is deliberately left nondeterministic here: `sort.Slice` is
documented as NOT guaranteed to be stable, so equal-key orderings are
unspecified. -/
def goSortSliceRel (less : α → α → Bool) (input output : List α) : Prop :=
  input.Perm output ∧ output.Pairwise (fun a b => less b a = false)

/-- Relational model of the list proxy's body handling: a body that
decodes to a JSON object containing an `objects` array of objects has that
array re-sorted by `name`; any shape mismatch (unmarshal failure, missing
or non-array `objects`, non-object element) passes the original bytes
through unchanged. -/
def handleQueryRel (body : JVal) (out : ProxyResult) : Prop :=
  match body with
  | .obj fs =>
    match goMapGet fs "objects" with
    | .arr elems =>
      match decodeObjElems elems with
      | some rows => ∃ sorted, goSortSliceRel objectsLess rows sorted ∧ out = .sortedObjects sorted
      | none => out = .passthrough
    | _ => out = .passthrough
  | _ => out = .passthrough

/-! Specification-side definitions, used only to state claims against the
embedding (each follows the spec's words, for comparison with the
source-derived functions above). -/

/-- Rendering of a value in a string column as the claim describes it:
null as the empty string, everything else by its default textual
formatting. -/
def strOfJVal : JVal → String
  | .null => ""
  | .bool b => goFormat (.bool b)
  | .num q => goFormat (.num q)
  | .str s => goFormat (.str s)
  | .arr xs => goFormat (.arr xs)
  | .obj fs => goFormat (.obj fs)

/-- First non-null value of a column, the inference source named by the
claim about column typing. -/
def specFirstNonNull : List JVal → Option JVal
  | [] => none
  | .null :: vs => specFirstNonNull vs
  | .bool b :: _ => some (.bool b)
  | .num q :: _ => some (.num q)
  | .str s :: _ => some (.str s)
  | .arr xs :: _ => some (.arr xs)
  | .obj fs :: _ => some (.obj fs)

/-- Right-padding of a segment list with zeros, the spec's treatment of
missing trailing segments. -/
def padZero (xs : List Int) (n : Nat) : List Int :=
  xs ++ List.replicate (n - xs.length) 0

/-- Numeric segments of a dotted version string, non-numeric segments
reading as zero (the spec's words; shares the splitting and `Atoi` models
with the source translation). -/
def versionSegs (v : String) : List Int :=
  (goSplitDot v).map goAtoi

/-- The spec's version order: the first version is greater than or equal
to the second under left-to-right segment-wise numeric comparison with
missing trailing segments read as zero — that is, the zero-padded segment
list of the first is not lexicographically below that of the second. -/
def specVersionGE (a r : String) : Prop :=
  ¬ List.Lex (· < ·)
      (padZero (versionSegs a) (max (versionSegs a).length (versionSegs r).length))
      (padZero (versionSegs r) (max (versionSegs a).length (versionSegs r).length))

/-- Window of `fuel` consecutive zero-defaulted segment values starting at
index `i`, the sequence the comparison loop of `isVersionGreater`
inspects (proof helper). -/
def segWindow (parts : List String) (i : Nat) : Nat → List Int
  | 0 => []
  | fuel + 1 => segAt parts i :: segWindow parts (i + 1) fuel

/-- Batch post-condition shared by the claim about per-query isolation:
the response map has exactly the input refIDs in order, each mapped to its
own query's result, and a query whose parameters fail to unmarshal gets
the `BadRequest` unmarshal error as its result. -/
def BatchIsolated (m : ResponseMap) (f : Query → DataResponse) (bad : Query → Prop)
    (qs : List Query) : Prop :=
  m = qs.map (fun q => (q.refID, f q))
  ∧ ∀ q ∈ qs, bad q → f q = .err .badRequest "json unmarshal"

/-! Concrete fixtures used by the closed evidence theorems and
witnesses. -/

/-- Fixture settings. -/
def cfgFix : Settings := { serverAddress := "http://s", apiKey := "k" }

/-- Remote fixture answering every request with `200 []`. -/
def env200Empty : RemoteEnv := fun _ => .http 200 (.arr [])

/-- Remote fixture answering every request with status 401. -/
def env401 : RemoteEnv := fun _ => .http 401 (.obj [])

/-- Remote body fixture: a dci series whose single row has an unparseable
timestamp. -/
def dciBadBody : JVal :=
  .obj [("description", .str "d"), ("unitName", .str "u"),
        ("values", .arr [.obj [("timestamp", .str "bad"), ("value", .str "1")]])]

/-- Remote fixture serving `dciBadBody` with status 200. -/
def envDciBad : RemoteEnv := fun _ => .http 200 dciBadBody

/-- Remote fixture serving one object whose status code 9 is one past the
palette. -/
def envStatus9 : RemoteEnv :=
  fun _ => .http 200 (.arr [.obj [("Name", .str "node"), ("Status", .num 9)]])

/-- Remote fixture serving a 200 object body with no `version` field. -/
def env200NoVersion : RemoteEnv := fun _ => .http 200 (.obj [])

/-- Fixture query with well-formed empty parameters. -/
def qA : Query := { refID := "A", json := .val (.obj []) }

/-- Fixture query with malformed JSON parameters. -/
def qB : Query := { refID := "B", json := .malformed "not json" }

/-- Fixture batch: one well-formed and one malformed query. -/
def qsFix : List Query := [qA, qB]

/-- First-row fields of the numeric-leading table fixture body (a column
led by a JSON number — the `NewField` panic case). -/
def ffFix : List (String × JVal) := [("a", .num 1)]

/-- Remaining rows of the table-shaper fixture bodies (one row missing
the canonical key `a`). -/
def restFix : List JVal := [.obj []]

/-- Decoded row maps of the numeric-leading table fixture body. -/
def rowsFix : List (List (String × JVal)) := [[("a", .num 1)], []]

/-- First-row fields of the string-leading (panic-free) table fixture
body. -/
def ffStr : List (String × JVal) := [("a", .str "x")]

/-- Decoded row maps of the string-leading table fixture body. -/
def rowsStr : List (List (String × JVal)) := [[("a", .str "x")], []]

/-- First-row fields exercising every column-lead kind the shaper
distinguishes (null, number, boolean, string, array, object). -/
def ff4Fix : List (String × JVal) :=
  [("n", .null), ("q", .num 2), ("b", .bool true), ("s", .str "x"),
   ("ar", .arr []), ("o", .obj [])]

/-- Second well-formed fixture query (distinct refID). -/
def qC : Query := { refID := "C", json := .val (.obj []) }

/-- Remote fixture serving a 200 table body whose single column is led by
a JSON number — the `NewField` panic input. -/
def envTableNum : RemoteEnv := fun _ => .http 200 (.arr [.obj [("a", .num 1)]])

/-- Per-query object-status results of the fixture batch (total: the
fixture remote data keeps every status inside the palette). -/
def rFix (q : Query) : DataResponse :=
  (objectStatusPerQuery env200Empty cfgFix q).getD (.ok [])

/-- Per-query summary-table results of the fixture batch (total: the
fixture remote body `[]` has no columns, so nothing panics). -/
def rtFix (q : Query) : DataResponse :=
  (tablePerQuery env200Empty cfgFix summaryTableConfig q).getD (.ok [])

/-- Request the alarms handler builds from `qA` under `cfgFix`. -/
def reqAlarmFix : RemoteReq :=
  { method := "POST", url := alarmsQueryURL cfgFix, body := some (.obj []) }

/-- Request the summary-table handler builds from `qA` under `cfgFix`. -/
def reqTableFix : RemoteReq :=
  { method := "POST", url := joinURL cfgFix.serverAddress summaryTableConfig.url,
    body := some (.obj (summaryTableConfig.formatBody [])) }

/-- Request the object-status handler builds from `qA` under `cfgFix`. -/
def reqOSFix : RemoteReq :=
  { method := "POST", url := objectStatusURL cfgFix, body := some (.obj []) }

/-! Helper lemmas about batch processing. -/

/-- Inserting a fresh key appends. -/
theorem setResponse_append (m : ResponseMap) (k : String) (v : DataResponse)
    (h : ∀ p ∈ m, p.fst ≠ k) : setResponse m k v = m ++ [(k, v)] := by
  unfold setResponse
  rw [if_neg]
  intro hc
  obtain ⟨p, hp, he⟩ := List.any_eq_true.mp hc
  exact h p hp (by simpa using he)

/-- The query loop over distinct refIDs appends one entry per query, in
order. -/
theorem runBatch_go (f : Query → DataResponse) (qs : List Query) :
    ∀ m : ResponseMap,
      (∀ q ∈ qs, ∀ p ∈ m, p.fst ≠ q.refID) →
      qs.Pairwise (fun a b => a.refID ≠ b.refID) →
      List.foldl (fun m q => setResponse m q.refID (f q)) m qs
        = m ++ qs.map (fun q => (q.refID, f q)) := by
  induction qs with
  | nil => intro m _ _; simp
  | cons q qs ih =>
    intro m hfresh hp
    rw [List.foldl_cons, List.map_cons,
      setResponse_append m q.refID (f q) (fun p hmem => hfresh q (List.mem_cons_self q qs) p hmem)]
    have hfresh2 : ∀ q2 ∈ qs, ∀ p ∈ m ++ [(q.refID, f q)], p.fst ≠ q2.refID := by
      intro q2 hq2 p hp2
      rcases List.mem_append.mp hp2 with hmem | hmem
      · exact hfresh q2 (List.mem_cons_of_mem q hq2) p hmem
      · have hpq : p = (q.refID, f q) := by simpa using hmem
        rw [hpq]
        exact (List.pairwise_cons.mp hp).1 q2 hq2
    rw [ih (m ++ [(q.refID, f q)]) hfresh2 (List.pairwise_cons.mp hp).2]
    simp

/-- Under distinct refIDs, a batch run is the per-query map. -/
theorem runBatch_eq (f : Query → DataResponse) (qs : List Query)
    (h : qs.Pairwise (fun a b => a.refID ≠ b.refID)) :
    runBatch f qs = qs.map (fun q => (q.refID, f q)) := by
  have hg := runBatch_go f qs [] (by simp) h
  simpa [runBatch] using hg

/-- A panic-free object-status loop equals the corresponding total
loop. -/
theorem runBatchOpt_go (f : Query → Option DataResponse) (r : Query → DataResponse)
    (qs : List Query) :
    ∀ m : ResponseMap,
      (∀ q ∈ qs, f q = some (r q)) →
      List.foldlM (fun m q => (f q).map (fun v => setResponse m q.refID v)) m qs
        = some (List.foldl (fun m q => setResponse m q.refID (r q)) m qs) := by
  induction qs with
  | nil => intro m _; rfl
  | cons q qs ih =>
    intro m hr
    rw [List.foldlM_cons, hr q (List.mem_cons_self q qs), List.foldl_cons]
    have ih2 := ih (setResponse m q.refID (r q)) (fun q2 h2 => hr q2 (List.mem_cons_of_mem q h2))
    simpa using ih2

/-! Claim theorems. -/

/-- C2 (counterexample): a batch of two well-formed queries with distinct
refIDs against which the remote data makes the first query's shaping
panic — a 200 table body with a numeric-leading column for the table
handler, a 200 object-status body with status 9 for the object-status
handler — returns NO response map at all: the panic aborts the loop, so
there is no result for either refID and the sibling query is never
attempted. -/
theorem netxms_C2_counterexample :
    qA.refID ≠ qC.refID
    ∧ handleTableQueryBatch envTableNum cfgFix summaryTableConfig [qA, qC] = none
    ∧ handleObjectStatusBatch envStatus9 cfgFix [qA, qC] = none :=
  ⟨by decide, rfl, rfl⟩

/-- C2 (amended): for every batch over pairwise-distinct refIDs, the
alarms and dciValues handlers unconditionally return exactly one result
per input refID (each query's own result, in input order), with a query
whose JSON parameters fail to unmarshal getting the `BadRequest` unmarshal
error for its refID only and the sibling queries unaffected.  The table
and object-status handlers satisfy the same invariant exactly for batches
whose per-query processing is panic-free (hypotheses `hrt`/`hro`); a
panicking query instead crashes the whole handler (see the
counterexample). -/
theorem netxms_C2_batch_isolation (env : RemoteEnv) (cfg : Settings) (tq : TableQueryConfig)
    (qs : List Query) (rt ro : Query → DataResponse)
    (hdist : qs.Pairwise (fun a b => a.refID ≠ b.refID))
    (hrt : ∀ q ∈ qs, tablePerQuery env cfg tq q = some (rt q))
    (hro : ∀ q ∈ qs, objectStatusPerQuery env cfg q = some (ro q)) :
    BatchIsolated (handleAlarmQueryBatch env cfg qs) (alarmPerQuery env cfg)
      (fun q => decodeQueryModel q.json = none) qs
    ∧ BatchIsolated (handleDciValuesBatch env cfg qs) (dciPerQuery env cfg)
      (fun q => decodeQueryModel q.json = none) qs
    ∧ (handleTableQueryBatch env cfg tq qs = some (qs.map (fun q => (q.refID, rt q)))
       ∧ ∀ q ∈ qs, decodeQueryMap q.json = none →
           rt q = .err .badRequest "json unmarshal")
    ∧ (handleObjectStatusBatch env cfg qs = some (qs.map (fun q => (q.refID, ro q)))
       ∧ ∀ q ∈ qs, decodeQueryModel q.json = none →
           ro q = .err .badRequest "json unmarshal") := by
  refine ⟨⟨runBatch_eq _ qs hdist, ?_⟩, ⟨runBatch_eq _ qs hdist, ?_⟩, ⟨?_, ?_⟩, ⟨?_, ?_⟩⟩
  · intro q _ hbad
    simp [alarmPerQuery, alarmLocal, hbad]
  · intro q _ hbad
    simp [dciPerQuery, dciLocal, hbad]
  · have hg := runBatchOpt_go (tablePerQuery env cfg tq) rt qs [] hrt
    have hb := runBatch_go rt qs [] (by simp) hdist
    unfold handleTableQueryBatch runBatchOpt
    rw [hg, hb]
    simp
  · intro q hq hbad
    have h1 := hrt q hq
    simp [tablePerQuery, tableLocal, hbad] at h1
    exact h1.symm
  · have hg := runBatchOpt_go (objectStatusPerQuery env cfg) ro qs [] hro
    have hb := runBatch_go ro qs [] (by simp) hdist
    unfold handleObjectStatusBatch runBatchOpt
    rw [hg, hb]
    simp
  · intro q hq hbad
    have h1 := hro q hq
    simp [objectStatusPerQuery, objectStatusLocal, hbad] at h1
    exact h1.symm

/-- Witness for the amended C2 at a concrete two-query batch (one
well-formed, one malformed query) against a fixture server on which
nothing panics. -/
theorem netxms_C2_witness :
    qsFix.Pairwise (fun a b => a.refID ≠ b.refID)
    ∧ (∀ q ∈ qsFix, tablePerQuery env200Empty cfgFix summaryTableConfig q = some (rtFix q))
    ∧ (∀ q ∈ qsFix, objectStatusPerQuery env200Empty cfgFix q = some (rFix q))
    ∧ (BatchIsolated (handleAlarmQueryBatch env200Empty cfgFix qsFix)
         (alarmPerQuery env200Empty cfgFix) (fun q => decodeQueryModel q.json = none) qsFix
       ∧ BatchIsolated (handleDciValuesBatch env200Empty cfgFix qsFix)
         (dciPerQuery env200Empty cfgFix) (fun q => decodeQueryModel q.json = none) qsFix
       ∧ (handleTableQueryBatch env200Empty cfgFix summaryTableConfig qsFix
            = some (qsFix.map (fun q => (q.refID, rtFix q)))
          ∧ ∀ q ∈ qsFix, decodeQueryMap q.json = none →
              rtFix q = .err .badRequest "json unmarshal")
       ∧ (handleObjectStatusBatch env200Empty cfgFix qsFix
            = some (qsFix.map (fun q => (q.refID, rFix q)))
          ∧ ∀ q ∈ qsFix, decodeQueryModel q.json = none →
              rFix q = .err .badRequest "json unmarshal")) := by
  have hp : qsFix.Pairwise (fun a b => a.refID ≠ b.refID) := by
    constructor
    · intro b hb
      have hb2 : b = qB := by simpa [qsFix] using hb
      rw [hb2]
      decide
    · exact List.pairwise_singleton _ _
  have hrt : ∀ q ∈ qsFix, tablePerQuery env200Empty cfgFix summaryTableConfig q
      = some (rtFix q) := by
    intro q hq
    rcases List.mem_cons.mp hq with rfl | hq
    · rfl
    rcases List.mem_cons.mp hq with rfl | hq
    · rfl
    · exact absurd hq (List.not_mem_nil q)
  have hro : ∀ q ∈ qsFix, objectStatusPerQuery env200Empty cfgFix q = some (rFix q) := by
    intro q hq
    rcases List.mem_cons.mp hq with rfl | hq
    · rfl
    rcases List.mem_cons.mp hq with rfl | hq
    · rfl
    · exact absurd hq (List.not_mem_nil q)
  exact ⟨hp, hrt, hro,
    netxms_C2_batch_isolation env200Empty cfgFix summaryTableConfig qsFix rtFix rFix hp hrt hro⟩

/-! Helper lemmas about the table shaper. -/

/-- A successful elementwise row decode preserves the row count. -/
theorem decodeRowList_length : ∀ {xs : List JVal} {rs : List (List (String × JVal))},
    decodeRowList xs = some rs → rs.length = xs.length := by
  intro xs
  induction xs with
  | nil =>
    intro rs h
    simp [decodeRowList] at h
    simp [← h]
  | cons x xs ih =>
    intro rs h
    unfold decodeRowList at h
    split at h
    next r rs2 hx hxs =>
      obtain rfl : r :: rs2 = rs := by simpa using h
      simp [ih hxs]
    next => simp at h

/-- A column whose leading cell is not a number or boolean is built
without panicking, with one cell per input cell. -/
theorem buildFieldData_of_not_raw (vs : List (Option CVal))
    (h : leadSelectsRaw vs = false) :
    ∃ fd, buildFieldData vs = some fd ∧ fd.length = vs.length := by
  cases vs with
  | nil => exact ⟨.strs [], rfl, rfl⟩
  | cons v t =>
    cases v with
    | none => exact ⟨_, rfl, by simp [FieldData.length]⟩
    | some c =>
      cases c with
      | num q => simp [leadSelectsRaw] at h
      | bool b => simp [leadSelectsRaw] at h
      | str s => exact ⟨_, rfl, by simp [FieldData.length]⟩

/-- A column whose leading cell is a number or boolean panics in
`data.NewField`. -/
theorem buildFieldData_raw_none (vs : List (Option CVal))
    (h : leadSelectsRaw vs = true) : buildFieldData vs = none := by
  cases vs with
  | nil => simp [leadSelectsRaw] at h
  | cons v t =>
    cases v with
    | none => simp [leadSelectsRaw] at h
    | some c =>
      cases c with
      | num q => rfl
      | bool b => rfl
      | str s => simp [leadSelectsRaw] at h

/-- When no column's leading cell is a number or boolean, the column loop
completes, producing one field per key in order, each with one cell per
row. -/
theorem buildFields_safe (rows : List (List (String × JVal))) :
    ∀ ks : List String, (∀ k ∈ ks, leadSelectsRaw (columnCells rows k) = false) →
    ∃ fs, buildFields rows ks = some fs
      ∧ fs.map Field.name = ks
      ∧ ∀ f ∈ fs, buildField f.name (columnCells rows f.name) = some f
          ∧ f.length = rows.length := by
  intro ks
  induction ks with
  | nil => exact fun _ => ⟨[], rfl, rfl, by simp⟩
  | cons k rest ih =>
    intro h
    obtain ⟨fd, hfd, hlen⟩ := buildFieldData_of_not_raw (columnCells rows k)
      (h k (List.mem_cons_self k rest))
    obtain ⟨fs, hfs, hn, hp⟩ := ih (fun k2 hk2 => h k2 (List.mem_cons_of_mem k hk2))
    refine ⟨{ name := k, fdata := fd } :: fs, ?_, ?_, ?_⟩
    · unfold buildFields
      rw [hfs, show buildField k (columnCells rows k) = some { name := k, fdata := fd } from by
        simp [buildField, hfd]]
    · simp [hn]
    · intro f hf
      rcases List.mem_cons.mp hf with rfl | hf
      · exact ⟨by simp [buildField, hfd], by simp [Field.length, hlen, columnCells]⟩
      · exact hp f hf

/-- When some column's leading cell is a number or boolean, the column
loop panics. -/
theorem buildFields_panic (rows : List (List (String × JVal))) :
    ∀ ks : List String,
    (∃ k ∈ ks, leadSelectsRaw (columnCells rows k) = true) → buildFields rows ks = none := by
  intro ks
  induction ks with
  | nil =>
    intro h
    obtain ⟨k, hk, _⟩ := h
    exact absurd hk (List.not_mem_nil k)
  | cons k rest ih =>
    intro h
    obtain ⟨k2, hk2, hraw⟩ := h
    rcases List.mem_cons.mp hk2 with rfl | hk2
    · unfold buildFields
      rw [show buildField k2 (columnCells rows k2) = none from by
        simp [buildField, buildFieldData_raw_none _ hraw]]
    · unfold buildFields
      rw [ih ⟨k2, hk2, hraw⟩]
      cases buildField k (columnCells rows k) <;> rfl

/-- Element of a replicated list. -/
theorem replicate_get?_lt {α : Type} (n i : Nat) (a : α) (h : i < n) :
    (List.replicate n a).get? i = some a := by
  induction n generalizing i with
  | zero => omega
  | succ n ih =>
    cases i with
    | zero => rfl
    | succ i => simpa [List.replicate_succ] using ih i (by omega)

/-- A present index is in bounds. -/
theorem get?_some_lt {α : Type} {l : List α} {i : Nat} {a : α} (h : l.get? i = some a) :
    i < l.length := by
  by_contra hc
  rw [List.get?_eq_none.mpr (by omega)] at h
  cases h

/-- A nil cell ends up as the null/empty placeholder of any column the
construction builds without panicking. -/
theorem buildField_cellIsEmpty (name : String) (vs : List (Option CVal)) (i : Nat) (f : Field)
    (h : vs.get? i = some none) (hb : buildField name vs = some f) :
    f.cellIsEmpty i = true := by
  have hlt : i < vs.length := get?_some_lt h
  cases vs with
  | nil => exact absurd hlt (by simp)
  | cons v vs2 =>
    cases v with
    | none =>
      have hfd : f.fdata
          = FieldData.strs (List.replicate ((none :: vs2 : List (Option CVal)).length) "") := by
        have h2 := hb
        simp only [buildField, buildFieldData, Option.map_some', Option.some.injEq] at h2
        rw [← h2]
      simp only [Field.cellIsEmpty, hfd]
      rw [replicate_get?_lt _ _ _ (by simpa using hlt)]
      rfl
    | some c =>
      cases c with
      | num q => simp [buildField, buildFieldData] at hb
      | bool b => simp [buildField, buildFieldData] at hb
      | str s =>
        have hfd : f.fdata = FieldData.strs ((some (CVal.str s) :: vs2).map cellToStr) := by
          have h2 := hb
          simp only [buildField, buildFieldData, Option.map_some', Option.some.injEq] at h2
          rw [← h2]
        simp only [Field.cellIsEmpty, hfd]
        rw [List.get?_map, h]
        rfl

/-- C1 (counterexample): the accepted non-empty array of objects
`[{"a":1},{}]` produces NO output frame at all — the column led by the
JSON number 1 makes `handleTableQuery` hand the raw `[]interface{}` to
`data.NewField`, which panics — refuting the claim that every accepted
array yields a frame in first-object key order. -/
theorem netxms_C1_counterexample :
    decodeRowList (JVal.obj ffFix :: restFix) = some rowsFix
    ∧ shapeTableBody "t" (.arr (.obj ffFix :: restFix)) = none :=
  ⟨rfl, rfl⟩

/-- C1 (amended): for every accepted non-empty JSON array of objects in
which no canonical column's leading cell is a JSON number or boolean, the
output frame's columns are exactly the first object's keys in textual
order, every column has one cell per input row, and a row lacking a
canonical key (or carrying `null`) contributes the null/empty cell rather
than failing; when some canonical column's leading cell IS a number or
boolean, the shaper instead panics in `data.NewField` and produces no
frame. -/
theorem netxms_C1_column_order (name : String) (ff : List (String × JVal)) (rest : List JVal)
    (rows : List (List (String × JVal)))
    (hrows : decodeRowList (JVal.obj ff :: rest) = some rows) :
    ((∀ k ∈ ff.map Prod.fst, leadSelectsRaw (columnCells rows k) = false) →
      ∃ fr : Frame, shapeTableBody name (.arr (.obj ff :: rest)) = some (.ok [fr])
        ∧ fr.name = name
        ∧ fr.fields.map Field.name = ff.map Prod.fst
        ∧ ∀ f ∈ fr.fields, f.length = rest.length + 1
            ∧ ∀ i r, rows.get? i = some r → goMapGet r f.name = .null →
                f.cellIsEmpty i = true)
    ∧ ((∃ k ∈ ff.map Prod.fst, leadSelectsRaw (columnCells rows k) = true) →
      shapeTableBody name (.arr (.obj ff :: rest)) = none) := by
  obtain ⟨rs2, hrest, rfl⟩ : ∃ rs2, decodeRowList rest = some rs2 ∧ rows = ff :: rs2 := by
    unfold decodeRowList at hrows
    split at hrows
    next r rs2 hx hxs =>
      obtain rfl : ff = r := by simpa [decodeRowMap] using hx
      obtain rfl : ff :: rs2 = rows := by simpa using hrows
      exact ⟨rs2, hxs, rfl⟩
    next => simp at hrows
  have hlen : (ff :: rs2 : List (List (String × JVal))).length = rest.length + 1 := by
    simp [decodeRowList_length hrest]
  constructor
  · intro hsafe
    obtain ⟨fs, hfs, hn, hp⟩ := buildFields_safe (ff :: rs2) (ff.map Prod.fst) hsafe
    refine ⟨{ name := name, fields := fs }, ?_, rfl, hn, ?_⟩
    · simp [shapeTableBody, decodeRowsArray, hrows, decodeOrderedKeys, hfs]
    · intro f hf
      obtain ⟨hbf, hflen⟩ := hp f hf
      refine ⟨hflen.trans hlen, ?_⟩
      intro i r hi hnull
      apply buildField_cellIsEmpty f.name (columnCells (ff :: rs2) f.name) i f ?_ hbf
      rw [columnCells, List.get?_map, hi]
      simp [hnull, coerceCell]
  · intro hpanic
    have hb := buildFields_panic (ff :: rs2) (ff.map Prod.fst) hpanic
    simp [shapeTableBody, decodeRowsArray, hrows, decodeOrderedKeys, hb]

/-- Witness for the amended C1: a string-leading two-row body (second row
missing the canonical key) shapes to a frame with the claimed properties,
and the number-leading body panics. -/
theorem netxms_C1_witness :
    decodeRowList (JVal.obj ffStr :: restFix) = some rowsStr
    ∧ (∀ k ∈ ffStr.map Prod.fst, leadSelectsRaw (columnCells rowsStr k) = false)
    ∧ (∃ fr : Frame, shapeTableBody "t" (.arr (.obj ffStr :: restFix)) = some (.ok [fr])
        ∧ fr.name = "t"
        ∧ fr.fields.map Field.name = ffStr.map Prod.fst
        ∧ ∀ f ∈ fr.fields, f.length = restFix.length + 1
            ∧ ∀ i r, rowsStr.get? i = some r → goMapGet r f.name = .null →
                f.cellIsEmpty i = true)
    ∧ decodeRowList (JVal.obj ffFix :: restFix) = some rowsFix
    ∧ (∃ k ∈ ffFix.map Prod.fst, leadSelectsRaw (columnCells rowsFix k) = true)
    ∧ shapeTableBody "t" (.arr (.obj ffFix :: restFix)) = none := by
  have hsafe : ∀ k ∈ ffStr.map Prod.fst, leadSelectsRaw (columnCells rowsStr k) = false := by
    decide
  have hraw : ∃ k ∈ ffFix.map Prod.fst, leadSelectsRaw (columnCells rowsFix k) = true :=
    ⟨"a", by decide, by decide⟩
  exact ⟨rfl, hsafe, (netxms_C1_column_order "t" ffStr restFix rowsStr rfl).1 hsafe,
    rfl, hraw, (netxms_C1_column_order "t" ffFix restFix rowsFix rfl).2 hraw⟩

/-- Coercion then string rendering agrees with the claim's per-value
default formatting (null as the empty string). -/
theorem cellToStr_coerce (v : JVal) : cellToStr (coerceCell v) = strOfJVal v := by
  cases v <;> rfl

/-- C4 (counterexample): on `[{"a":null},{"a":1}]` the shaper emits a
string column of two EMPTY cells — the branch is chosen from the first
row's null, not from the first non-null value (the number 1, which per the
claim should have determined the column), and the cell holding the 1 does
not even carry that value's textual formatting. -/
theorem netxms_C4_counterexample :
    shapeTableBody "t" (.arr [.obj [("a", JVal.null)], .obj [("a", JVal.num 1)]])
      = some (.ok [{ name := "t", fields := [{ name := "a", fdata := .strs ["", ""] }] }])
    ∧ specFirstNonNull [JVal.null, JVal.num 1] = some (JVal.num 1)
    ∧ FieldData.strs ["", ""] ≠ FieldData.strs ["", formatRatGo 1] :=
  ⟨rfl, rfl, by decide⟩

/-- C4 (amended): each column's treatment is chosen from the FIRST row's
value: a leading JSON number or boolean makes the handler hand the raw
`[]interface{}` to `data.NewField`, which PANICS, so no column (and no
frame) is produced; any other non-null leading value yields a string
column rendering every value by its default textual formatting with nulls
as empty strings; and a null (or missing) leading value yields a string
column made entirely of empty strings, regardless of later values.  The
first conjunct ties the shaper's output (including panic propagation) to
the per-column construction. -/
theorem netxms_C4_first_value_inference (name : String) (ff : List (String × JVal))
    (rest : List JVal) (rows : List (List (String × JVal)))
    (hrows : decodeRowList (JVal.obj ff :: rest) = some rows) :
    shapeTableBody name (.arr (.obj ff :: rest))
      = (buildFields rows (ff.map Prod.fst)).map
          (fun fs => .ok [{ name := name, fields := fs }])
    ∧ ∀ k ∈ ff.map Prod.fst,
        ((rows.map (fun r => goMapGet r k)).head? = some .null →
          buildField k (columnCells rows k)
            = some { name := k, fdata := .strs (List.replicate rows.length "") })
        ∧ (∀ q, (rows.map (fun r => goMapGet r k)).head? = some (.num q) →
            buildField k (columnCells rows k) = none)
        ∧ (∀ b, (rows.map (fun r => goMapGet r k)).head? = some (.bool b) →
            buildField k (columnCells rows k) = none)
        ∧ (∀ s, (rows.map (fun r => goMapGet r k)).head? = some (.str s) →
            buildField k (columnCells rows k)
              = some { name := k, fdata := .strs (rows.map (fun r => strOfJVal (goMapGet r k))) })
        ∧ (∀ xs, (rows.map (fun r => goMapGet r k)).head? = some (.arr xs) →
            buildField k (columnCells rows k)
              = some { name := k, fdata := .strs (rows.map (fun r => strOfJVal (goMapGet r k))) })
        ∧ (∀ gs, (rows.map (fun r => goMapGet r k)).head? = some (.obj gs) →
            buildField k (columnCells rows k)
              = some { name := k, fdata := .strs (rows.map (fun r => strOfJVal (goMapGet r k))) }) := by
  obtain ⟨rs2, hrest, rfl⟩ : ∃ rs2, decodeRowList rest = some rs2 ∧ rows = ff :: rs2 := by
    unfold decodeRowList at hrows
    split at hrows
    next r rs2 hx hxs =>
      obtain rfl : ff = r := by simpa [decodeRowMap] using hx
      obtain rfl : ff :: rs2 = rows := by simpa using hrows
      exact ⟨rs2, hxs, rfl⟩
    next => simp at hrows
  have hstrs : ∀ k, (columnCells (ff :: rs2) k).map cellToStr
      = (ff :: rs2).map (fun r => strOfJVal (goMapGet r k)) := by
    intro k
    rw [columnCells, List.map_map]
    exact List.map_congr_left (fun r _ => cellToStr_coerce (goMapGet r k))
  refine ⟨?_, ?_⟩
  · simp [shapeTableBody, decodeRowsArray, hrows, decodeOrderedKeys]
  · intro k _
    have hcells : columnCells (ff :: rs2) k
        = coerceCell (goMapGet ff k) :: columnCells rs2 k := by
      simp [columnCells]
    refine ⟨?_, ?_, ?_, ?_, ?_, ?_⟩
    · intro h
      have h0 : goMapGet ff k = .null := by simpa using h
      rw [hcells, h0]
      simp [buildField, buildFieldData, coerceCell, columnCells]
    · intro q h
      have h0 : goMapGet ff k = .num q := by simpa using h
      rw [hcells, h0]
      rfl
    · intro b h
      have h0 : goMapGet ff k = .bool b := by simpa using h
      rw [hcells, h0]
      rfl
    · intro s h
      have h0 : goMapGet ff k = .str s := by simpa using h
      rw [← hstrs k, hcells, h0]
      rfl
    · intro xs h
      have h0 : goMapGet ff k = .arr xs := by simpa using h
      rw [← hstrs k, hcells, h0]
      rfl
    · intro gs h
      have h0 : goMapGet ff k = .obj gs := by simpa using h
      rw [← hstrs k, hcells, h0]
      rfl

/-- Witness for the amended C4 at a single-row body exercising every
column-lead kind (null, number, boolean, string, array, object). -/
theorem netxms_C4_witness :
    decodeRowList (JVal.obj ff4Fix :: ([] : List JVal)) = some [ff4Fix]
    ∧ (shapeTableBody "t" (.arr (.obj ff4Fix :: ([] : List JVal)))
        = (buildFields [ff4Fix] (ff4Fix.map Prod.fst)).map
            (fun fs => .ok [{ name := "t", fields := fs }])
      ∧ ∀ k ∈ ff4Fix.map Prod.fst,
          (([ff4Fix].map (fun r => goMapGet r k)).head? = some .null →
            buildField k (columnCells [ff4Fix] k)
              = some { name := k, fdata := .strs (List.replicate ([ff4Fix] : List (List (String × JVal))).length "") })
          ∧ (∀ q, ([ff4Fix].map (fun r => goMapGet r k)).head? = some (.num q) →
              buildField k (columnCells [ff4Fix] k) = none)
          ∧ (∀ b, ([ff4Fix].map (fun r => goMapGet r k)).head? = some (.bool b) →
              buildField k (columnCells [ff4Fix] k) = none)
          ∧ (∀ s, ([ff4Fix].map (fun r => goMapGet r k)).head? = some (.str s) →
              buildField k (columnCells [ff4Fix] k)
                = some { name := k, fdata := .strs ([ff4Fix].map (fun r => strOfJVal (goMapGet r k))) })
          ∧ (∀ xs, ([ff4Fix].map (fun r => goMapGet r k)).head? = some (.arr xs) →
              buildField k (columnCells [ff4Fix] k)
                = some { name := k, fdata := .strs ([ff4Fix].map (fun r => strOfJVal (goMapGet r k))) })
          ∧ (∀ gs, ([ff4Fix].map (fun r => goMapGet r k)).head? = some (.obj gs) →
              buildField k (columnCells [ff4Fix] k)
                = some { name := k, fdata := .strs ([ff4Fix].map (fun r => strOfJVal (goMapGet r k))) })) :=
  ⟨rfl, netxms_C4_first_value_inference "t" ff4Fix [] [ff4Fix] rfl⟩

/-- C3 (code bug evidence): an empty JSON array response produces a
SUCCESSFUL frame with no fields — not the `BadRequest` "empty array" error
the spec requires — both at the shaping stage and through the whole
summary-table pipeline.  The source's "empty array" branch sits inside
`if len(tableResponse) > 0` and is therefore unreachable. -/
theorem netxms_C3_empty_array :
    shapeTableBody "summary-table" (.arr [])
      = some (.ok [{ name := "summary-table", fields := [] }])
    ∧ tablePerQuery env200Empty cfgFix summaryTableConfig qA
        = some (.ok [{ name := "summary-table", fields := [] }])
    ∧ (∀ st m, DataResponse.ok [{ name := "summary-table", fields := [] }]
        ≠ DataResponse.err st m) :=
  ⟨rfl, rfl, fun _ _ h => DataResponse.noConfusion h⟩

/-- C5 (counterexample): a 401 remote response to a dciValues query is NOT
turned into the unauthorized error — `handleDciValues` never inspects the
HTTP status, so the 401 body is simply parsed as a (here empty) series and
returned as a successful frame. -/
theorem netxms_C5_counterexample :
    dciPerQuery env401 cfgFix qA
      = .ok [{ name := "",
               fields := [{ name := "time", fdata := .times [] },
                          { name := "value", labels := [("unit", "")], fdata := .floats [] }] }]
    ∧ dciPerQuery env401 cfgFix qA ≠ unauthorizedResp :=
  ⟨rfl, by decide⟩

/-- C5 (amended): every query of the alarms, table (summary-table /
object-query) and object-status types whose remote call returns HTTP 401
gets exactly the `Unauthorized: Invalid API key` error, regardless of the
response body; the dciValues handler performs no status check at all. -/
theorem netxms_C5_unauthorized (env : RemoteEnv) (cfg : Settings) (tq : TableQueryConfig)
    (q : Query) (reqA reqT reqO : RemoteReq) (body : JVal) :
    (alarmLocal cfg q.json = .ok reqA → env reqA = .http 401 body →
      alarmPerQuery env cfg q = unauthorizedResp)
    ∧ (tableLocal cfg tq q.json = .ok reqT → env reqT = .http 401 body →
      tablePerQuery env cfg tq q = some unauthorizedResp)
    ∧ (objectStatusLocal cfg q.json = .ok reqO → env reqO = .http 401 body →
      objectStatusPerQuery env cfg q = some unauthorizedResp) := by
  refine ⟨?_, ?_, ?_⟩
  · intro h1 h2
    simp [alarmPerQuery, h1, remotePhase, h2, statusGate, unauthorizedResp]
  · intro h1 h2
    simp [tablePerQuery, h1, h2, statusGate, unauthorizedResp]
  · intro h1 h2
    simp [objectStatusPerQuery, h1, h2, statusGate, unauthorizedResp]

/-- Witness for the amended C5: the three handlers each return the fixed
unauthorized error against a server answering 401 everywhere. -/
theorem netxms_C5_witness :
    (alarmLocal cfgFix qA.json = .ok reqAlarmFix
      ∧ alarmPerQuery env401 cfgFix qA = unauthorizedResp)
    ∧ (tableLocal cfgFix summaryTableConfig qA.json = .ok reqTableFix
      ∧ tablePerQuery env401 cfgFix summaryTableConfig qA = some unauthorizedResp)
    ∧ (objectStatusLocal cfgFix qA.json = .ok reqOSFix
      ∧ objectStatusPerQuery env401 cfgFix qA = some unauthorizedResp) := by
  have h := netxms_C5_unauthorized env401 cfgFix summaryTableConfig qA
    reqAlarmFix reqTableFix reqOSFix (.obj [])
  exact ⟨⟨rfl, h.1 rfl rfl⟩, ⟨rfl, h.2.1 rfl rfl⟩, ⟨rfl, h.2.2 rfl rfl⟩⟩

/-- C6 (code bug evidence): a series row with an unparseable timestamp
makes the row loop record a `BadRequest` error response, but the
unconditional success write after the loop replaces it, so the final
result for the query is a successful frame whose bad row holds the zero
time and zero value. -/
theorem netxms_C6_error_overwritten :
    dciLoop [("bad", "1")] = ([zeroGoTime], [0], some "failed to parse timestamp")
    ∧ dciPerQuery envDciBad cfgFix qA
        = .ok [{ name := "d",
                 fields := [{ name := "time", fdata := .times [zeroGoTime] },
                            { name := "value", labels := [("unit", "u")],
                              fdata := .floats [0] }] }] :=
  ⟨rfl, rfl⟩

/-- C7 (code bug evidence): the object-status shaper indexes its 9-entry
palette without a bounds check, so remote status 9 (or any value outside
0..8) is a runtime panic (`none`), aborting the handler; and `CheckHealth`
type-asserts `data["version"].(string)` unchecked, so a 200 body without a
string `version` field panics instead of producing a structured error. -/
theorem netxms_C7_unsafe_operations :
    statusColorPalette.length = 9
    ∧ shapeObjectStatusFrames [{ name := "node", status := 9 }] = none
    ∧ objectStatusPerQuery envStatus9 cfgFix qA = none
    ∧ checkHealth env200NoVersion cfgFix = none :=
  ⟨rfl, rfl, rfl, rfl⟩

/-- C9 (code bug evidence): the alarms query builds a POST whose URL is
`joinURL(serverAddress, "v1/server-info")` — byte for byte the same
server-info endpoint the health check uses, not a distinct alarms
endpoint. -/
theorem netxms_C9_alarms_endpoint :
    (∀ cfg : Settings, alarmsQueryURL cfg = healthCheckURL cfg)
    ∧ alarmLocal cfgFix (.val (.obj [])) = .ok reqAlarmFix
    ∧ reqAlarmFix.method = "POST"
    ∧ reqAlarmFix.url = healthCheckURL cfgFix :=
  ⟨fun _ => rfl, rfl, rfl, rfl⟩

/-! Helper lemmas about the version comparator. -/

/-- Shifting the window start past a consumed head segment. -/
theorem segWindow_shift (p : String) (ps : List String) (f : Nat) :
    ∀ i, segWindow (p :: ps) (i + 1) f = segWindow ps i f := by
  induction f with
  | zero => intro i; rfl
  | succ f ih =>
    intro i
    simp only [segWindow]
    rw [ih (i + 1)]
    rfl

/-- Windows over no segments are all zeros. -/
theorem segWindow_nil (n : Nat) : ∀ i, segWindow ([] : List String) i n = List.replicate n 0 := by
  induction n with
  | zero => intro i; rfl
  | succ n ih =>
    intro i
    simp only [segWindow, List.replicate_succ]
    rw [ih (i + 1)]
    rfl

/-- The loop's zero-defaulted window is the spec's zero-padded segment
list. -/
theorem segWindow_eq_pad : ∀ (ps : List String) (n : Nat), ps.length ≤ n →
    segWindow ps 0 n = padZero (ps.map goAtoi) n := by
  intro ps
  induction ps with
  | nil =>
    intro n _
    rw [segWindow_nil n 0]
    simp [padZero]
  | cons p ps ih =>
    intro n hn
    cases n with
    | zero => simp at hn
    | succ m =>
      simp only [segWindow]
      rw [segWindow_shift p ps m 0, ih m (by simpa using hn)]
      simp [padZero, Nat.succ_sub_succ, segAt]

/-- Lexicographic comparison ignores an equal head when the order is
irreflexive. -/
theorem lexConsSame (x : Int) (w1 w2 : List Int) :
    List.Lex (· < ·) (x :: w1) (x :: w2) ↔ List.Lex (· < ·) w1 w2 := by
  constructor
  · intro h
    cases h with
    | cons h => exact h
    | rel hr => exact absurd hr (lt_irrefl x)
  · intro h
    exact List.Lex.cons h

/-- The comparison loop accepts exactly when the remaining window of the
first version is not lexicographically below that of the second. -/
theorem versionLoop_iff (as rs : List String) (fuel : Nat) :
    ∀ i, versionLoop as rs i fuel = true
      ↔ ¬ List.Lex (· < ·) (segWindow as i fuel) (segWindow rs i fuel) := by
  induction fuel with
  | zero =>
    intro i
    constructor
    · intro _ h
      cases h
    · intro _
      rfl
  | succ fuel ih =>
    intro i
    simp only [versionLoop, segWindow]
    rcases lt_trichotomy (segAt as i) (segAt rs i) with hlt | heq | hgt
    · rw [if_neg (by omega), if_pos hlt]
      exact iff_of_false (by simp) (fun hn => hn (List.Lex.rel hlt))
    · rw [if_neg (by omega), if_neg (by omega)]
      rw [show segAt rs i = segAt as i from heq.symm]
      rw [lexConsSame (segAt as i) (segWindow as (i + 1) fuel) (segWindow rs (i + 1) fuel)]
      exact ih (i + 1)
    · rw [if_pos hgt]
      refine iff_of_true rfl ?_
      intro h
      revert hgt h
      generalize segAt as i = x
      generalize segAt rs i = y
      intro hgt h
      cases h with
      | cons h2 => omega
      | rel hr => omega

/-- C8: the version comparator returns `true` exactly when the first
dotted version is greater than or equal to the second under left-to-right
segment-wise numeric comparison with missing trailing segments (and
non-numeric segments, via the `Atoi` model) read as zero; in particular on
the four example pairs. -/
theorem netxms_C8_version_comparator :
    (∀ a r, isVersionGreater a r = true ↔ specVersionGE a r)
    ∧ isVersionGreater "5.2.4" "5.2.4" = true
    ∧ isVersionGreater "5.2.10" "5.2.4" = true
    ∧ isVersionGreater "5.1.9" "5.2.4" = false
    ∧ isVersionGreater "5" "4.9.9" = true := by
  refine ⟨?_, by decide, by decide, by decide, by decide⟩
  intro a r
  have h1 := versionLoop_iff (goSplitDot a) (goSplitDot r)
    (max (goSplitDot a).length (goSplitDot r).length) 0
  rw [segWindow_eq_pad _ _ (le_max_left _ _),
      segWindow_eq_pad _ _ (le_max_right _ _)] at h1
  simpa [isVersionGreater, specVersionGE, versionSegs, List.length_map] using h1

/-! Auxiliary list-proxy theorems (about `handleQueryRel`): the matched
shape is re-sorted by `name`, everything else is passed through.  The
stability clause of the corresponding spec sentence is NOT settled here:
`sort.Slice` is documented as unstable and its concrete stdlib algorithm
is outside this repository, so `goSortSliceRel` constrains the output only
to a sorted permutation. -/

/-- A response of the matched shape is replaced by a sorted permutation of
its `objects` array. -/
theorem netxms_listProxy_sorted (fs : List (String × JVal)) (elems : List JVal)
    (rows : List (List (String × JVal))) (out : ProxyResult)
    (h1 : goMapGet fs "objects" = .arr elems)
    (h2 : decodeObjElems elems = some rows)
    (h3 : handleQueryRel (.obj fs) out) :
    ∃ sorted, out = .sortedObjects sorted ∧ rows.Perm sorted
      ∧ sorted.Pairwise (fun a b => objectsLess b a = false) := by
  simp only [handleQueryRel, h1, h2] at h3
  obtain ⟨s, hs, rfl⟩ := h3
  exact ⟨s, rfl, hs.1, hs.2⟩

/-- A body that is not a JSON object passes through unmodified. -/
theorem netxms_listProxy_passthrough (out : ProxyResult) (s : String)
    (h : handleQueryRel (.str s) out) : out = .passthrough := h

end NetXMS
